import Mathlib

/-!
Verification of the lenzo.ai frontend API-client core.  This file gives a
shallow embedding of the response validators (frontend/types/api.ts), the zod
schemas (frontend/lib/api/schemas.ts), the polling clients
(frontend/lib/api.ts and frontend/lib/api/client.ts), the fetch wrapper
(frontend/lib/api/fetch-wrapper.ts) and the safe formatters
(frontend/lib/safe-formatters.ts), and proves the spec's testable properties
against it.

JSON values are modelled exactly as an inductive type; JavaScript numbers are
modelled as exact rationals (JSON cannot carry NaN or Infinity; where NaN and
the infinities can arise at runtime, in the formatters, they are modelled
explicitly).  Wall-clock time is modelled as a logical clock advanced only by
the explicit sleeps of the code.  Network interaction is modelled by passing
the stream of replies the endpoints would produce as an explicit list.
-/

namespace Lenzo

/-- A JSON value, as produced by response.json(). -/
inductive Json where
  | jnull
  | jbool (b : Bool)
  | jnum (q : ℚ)
  | jstr (s : String)
  | jarr (elems : List Json)
  | jobj (fields : List (String × Json))

/-- JavaScript truthiness of a JSON value (NaN cannot occur in parsed JSON). -/
def truthy : Json → Bool
  | .jnull => false
  | .jbool b => b
  | .jnum q => decide (q ≠ 0)
  | .jstr s => decide (s ≠ "")
  | .jarr _ => true
  | .jobj _ => true

/-- Property lookup on a JS object.  JSON.parse keeps the last of duplicate
keys, so the lookup gives later entries priority. -/
def lookupField (fields : List (String × Json)) (key : String) : Option Json :=
  match fields with
  | [] => none
  | p :: rest =>
    match lookupField rest key with
    | some v => some v
    | none => if p.1 = key then some p.2 else none

/-- Property access v.key in JavaScript: throws a TypeError on null (modelled
as the error case), yields undefined (modelled as an inner none) on primitives
and arrays and on objects lacking the key. -/
def jsGetField : Json → String → Except Unit (Option Json)
  | .jnull, _ => .error ()
  | .jobj fields, key => .ok (lookupField fields key)
  | _, _ => .ok none

/-- The distinct failure exits of validateQueryResponse
(frontend/types/api.ts).  Each constructor corresponds to one throw site of
the source; the thrown message names the offending field, or the offending
model_metrics index, which the constructor carries together with the
interpolated offending value.  jsTypeErr models the TypeError raised by
property access on a null array element. -/
inductive VError where
  | invalidObject
  | missingRequestId
  | missingAnswer
  | invalidConfidence (v : Option Json)
  | missingWinnerModel
  | metricsNotArray
  | metricConfidenceInvalid (index : Nat) (v : Option Json)
  | jsTypeErr

/-- The source's check pattern (!data.f || typeof data.f !== 'string'): it
passes exactly for non-empty strings. -/
def requireNonEmptyString (v : Option Json) (e : VError) : Except VError Unit :=
  match v with
  | some (.jstr s) => if s = "" then .error e else .ok ()
  | _ => .error e

/-- typeof data.confidence !== 'number' || data.confidence < 0 ||
data.confidence > 1, reporting the offending value. -/
def checkTopConfidence (fields : List (String × Json)) : Except VError Unit :=
  match lookupField fields "confidence" with
  | some (.jnum c) =>
    if 0 ≤ c ∧ c ≤ 1 then .ok () else .error (.invalidConfidence (some (.jnum c)))
  | v => .error (.invalidConfidence v)

/-- data.model_metrics.forEach: each element's confidence must be a number in
[0,1]; the first offending index is reported.  Property access on a null
element raises a TypeError. -/
def checkMetrics : List Json → Nat → Except VError Unit
  | [], _ => .ok ()
  | m :: rest, i =>
    match jsGetField m "confidence" with
    | .error _ => .error .jsTypeErr
    | .ok v =>
      match v with
      | some (.jnum c) =>
        if 0 ≤ c ∧ c ≤ 1 then checkMetrics rest (i + 1)
        else .error (.metricConfidenceInvalid i (some (.jnum c)))
      | _ => .error (.metricConfidenceInvalid i v)

/-- validateQueryResponse (frontend/types/api.ts).  A JS array passes the
typeof object check but lacks all the required properties, so it fails on
request_id; any other non-object fails the first check.  On success the input
is returned unchanged (the source's `return data as QueryResponse`). -/
def validateQueryResponse (data : Json) : Except VError Json :=
  match data with
  | .jobj fields =>
    match requireNonEmptyString (lookupField fields "request_id") .missingRequestId with
    | .error e => .error e
    | .ok _ =>
      match requireNonEmptyString (lookupField fields "answer") .missingAnswer with
      | .error e => .error e
      | .ok _ =>
        match checkTopConfidence fields with
        | .error e => .error e
        | .ok _ =>
          match requireNonEmptyString (lookupField fields "winner_model") .missingWinnerModel with
          | .error e => .error e
          | .ok _ =>
            match lookupField fields "model_metrics" with
            | some (.jarr ms) =>
              match checkMetrics ms 0 with
              | .error e => .error e
              | .ok _ => .ok data
            | _ => .error .metricsNotArray
  | .jarr _ => .error .missingRequestId
  | _ => .error .invalidObject

/-- validateQueryResponse applied to a possibly-undefined value (the job
poller passes data.result, which may be absent): !undefined fails the first
check exactly like null. -/
def validateQueryResponseOpt : Option Json → Except VError Json
  | none => .error .invalidObject
  | some j => validateQueryResponse j

/-! ### JS numeric string parsing and the zod schemas (frontend/lib/api/schemas.ts) -/

def takeDigits (cs : List Char) : List Char × List Char :=
  (cs.takeWhile Char.isDigit, cs.dropWhile Char.isDigit)

def digitsToNat (ds : List Char) : Nat :=
  ds.foldl (fun a c => a * 10 + (c.toNat - 48)) 0

def expNat (cs : List Char) : Int :=
  let ds := (takeDigits cs).1
  if ds.isEmpty then 0 else (digitsToNat ds : Int)

def expDigits (cs : List Char) : Int :=
  match cs with
  | '+' :: t => expNat t
  | '-' :: t => - expNat t
  | _ => expNat cs

/-- Exponent part of a JS float literal; parseFloat keeps the longest valid
prefix, so a dangling exponent marker contributes nothing. -/
def expPart (cs : List Char) : Int :=
  match cs with
  | 'e' :: t => expDigits t
  | 'E' :: t => expDigits t
  | _ => 0

/-- The exact rational sign * 0.ip fp * 10^e, assembled with integer
arithmetic only. -/
def ratOfDigits (sign : Int) (ip fp : List Char) (e : Int) : ℚ :=
  let m : Int := digitsToNat (ip ++ fp)
  let eAdj : Int := e - fp.length
  if 0 ≤ eAdj then mkRat (sign * m * (10 : Int) ^ eAdj.toNat) 1
  else mkRat (sign * m) ((10 : Nat) ^ (- eAdj).toNat)

def jsWhitespace (c : Char) : Bool :=
  (c == ' ') || (c == '\t') || (c == '\n') || (c == '\r')

/-- parseFloat as used by the zod NumericField: after leading whitespace, the
longest prefix matching an optional sign and decimal digits with optional
fraction and exponent.  none models NaN (no numeric prefix) as well as the
Infinity results; the schema's finiteness refinement rejects those anyway.
(Unicode whitespace beyond the four ASCII kinds is not modelled.) -/
def parseFloatQ (s : String) : Option ℚ :=
  let cs := s.data.dropWhile jsWhitespace
  let signAndRest : Int × List Char :=
    match cs with
    | '+' :: t => (1, t)
    | '-' :: t => (-1, t)
    | _ => (1, cs)
  let sign := signAndRest.1
  let cs1 := signAndRest.2
  if cs1.take 8 = "Infinity".data then none
  else
    let ip := (takeDigits cs1).1
    let cs2 := (takeDigits cs1).2
    let fpAndRest : List Char × List Char :=
      match cs2 with
      | '.' :: t => takeDigits t
      | _ => ([], cs2)
    let fp := fpAndRest.1
    let cs3 := fpAndRest.2
    if ip.isEmpty ∧ fp.isEmpty then none
    else some (ratOfDigits sign ip fp (expPart cs3))

/-- The zod NumericField (frontend/lib/api/schemas.ts): a number passes
through (finite by construction, since JSON cannot carry NaN or Infinity), a
string is coerced with parseFloat, and the refinement keeps only finite
results; any other shape fails the union. -/
def NumericField : Json → Option ℚ
  | .jnum q => some q
  | .jstr s => parseFloatQ s
  | _ => none

/-- The result of ModelMetricsSchema.parse: every numeric field is
NumericField.optional().default(0). -/
structure ModelMetrics where
  model : String
  confidence : ℚ
  response_time_ms : ℚ
  cost : ℚ
  reliability_score : ℚ
  hallucination_risk : ℚ
  consistency_score : ℚ
  citation_quality : ℚ

/-- NumericField.optional().default(0): a missing key defaults to 0, a present
value must pass NumericField. -/
def zNumDefault (fields : List (String × Json)) (key : String) : Option ℚ :=
  match lookupField fields key with
  | none => some 0
  | some v => NumericField v

def zStr (fields : List (String × Json)) (key : String) : Option String :=
  match lookupField fields key with
  | some (.jstr s) => some s
  | _ => none

/-- ModelMetricsSchema (frontend/lib/api/schemas.ts). -/
def ModelMetricsSchema (j : Json) : Option ModelMetrics :=
  match j with
  | .jobj fields =>
    match zStr fields "model" with
    | some m =>
      match zNumDefault fields "confidence", zNumDefault fields "response_time_ms",
            zNumDefault fields "cost", zNumDefault fields "reliability_score",
            zNumDefault fields "hallucination_risk", zNumDefault fields "consistency_score",
            zNumDefault fields "citation_quality" with
      | some c, some rt, some co, some rel, some hal, some cons, some cit =>
        some ⟨m, c, rt, co, rel, hal, cons, cit⟩
      | _, _, _, _, _, _, _ => none
    | none => none
  | _ => none

/-- The result of QueryResponseSchema.parse.  Unknown keys are stripped, as
zod does by default. -/
structure QueryResponse where
  request_id : String
  status : Option String
  answer : String
  confidence : ℚ
  models_used : List String
  winner_model : String
  response_time_ms : ℚ
  total_cost : Option ℚ
  estimated_cost : Option ℚ
  model_metrics : Option (List ModelMetrics)
  trust_metrics : Option (List (String × ℚ))
  citations : Option (List Json)

def zReqNum (fields : List (String × Json)) (key : String) : Option ℚ :=
  match lookupField fields key with
  | some v => NumericField v
  | none => none

def zOptNum (fields : List (String × Json)) (key : String) : Option (Option ℚ) :=
  match lookupField fields key with
  | none => some none
  | some v => (NumericField v).map some

def zOptPlainNum (fields : List (String × Json)) (key : String) : Option (Option ℚ) :=
  match lookupField fields key with
  | none => some none
  | some (.jnum q) => some (some q)
  | some _ => none

def zOptStr (fields : List (String × Json)) (key : String) : Option (Option String) :=
  match lookupField fields key with
  | none => some none
  | some (.jstr s) => some (some s)
  | some _ => none

def zStrArray : Json → Option (List String)
  | .jarr xs => xs.mapM (fun x => match x with | .jstr s => some s | _ => none)
  | _ => none

/-- z.literal of the string completed, made optional. -/
def zOptLiteralCompleted (fields : List (String × Json)) : Option (Option String) :=
  match lookupField fields "status" with
  | none => some none
  | some (.jstr s) => if s = "completed" then some (some s) else none
  | some _ => none

def zOptMetricsArray (fields : List (String × Json)) : Option (Option (List ModelMetrics)) :=
  match lookupField fields "model_metrics" with
  | none => some none
  | some (.jarr xs) => (xs.mapM ModelMetricsSchema).map some
  | some _ => none

def zOptRecordNum (fields : List (String × Json)) (key : String) :
    Option (Option (List (String × ℚ))) :=
  match lookupField fields key with
  | none => some none
  | some (.jobj gs) =>
    (gs.mapM (fun p => (NumericField p.2).map (fun q => (p.1, q)))).map some
  | some _ => none

def zOptAnyArray (fields : List (String × Json)) (key : String) :
    Option (Option (List Json)) :=
  match lookupField fields key with
  | none => some none
  | some (.jarr xs) => some (some xs)
  | some _ => none

/-- QueryResponseSchema (frontend/lib/api/schemas.ts). -/
def QueryResponseSchema (j : Json) : Option QueryResponse :=
  match j with
  | .jobj fields => do
    let rid ← zStr fields "request_id"
    let st ← zOptLiteralCompleted fields
    let ans ← zStr fields "answer"
    let conf ← zReqNum fields "confidence"
    let mu ← (lookupField fields "models_used").bind zStrArray
    let wm ← zStr fields "winner_model"
    let rt ← zReqNum fields "response_time_ms"
    let tc ← zOptNum fields "total_cost"
    let ec ← zOptNum fields "estimated_cost"
    let mm ← zOptMetricsArray fields
    let tm ← zOptRecordNum fields "trust_metrics"
    let cit ← zOptAnyArray fields "citations"
    pure ⟨rid, st, ans, conf, mu, wm, rt, tc, ec, mm, tm, cit⟩
  | _ => none

/-- The result of AsyncJobResponseSchema.parse. -/
structure AsyncJobResponse where
  job_id : String
  status : String
  estimated_time_ms : Option ℚ
  queue_position : Option ℚ
  message : Option String

/-- AsyncJobResponseSchema (frontend/lib/api/schemas.ts): job_id and an
enumerated status are required, the rest optional. -/
def AsyncJobResponseSchema (j : Json) : Option AsyncJobResponse :=
  match j with
  | .jobj fields => do
    let jid ← zStr fields "job_id"
    let st ← zStr fields "status"
    if st = "queued" ∨ st = "processing" ∨ st = "completed" ∨ st = "failed" then
      let etm ← zOptNum fields "estimated_time_ms"
      let qp ← zOptPlainNum fields "queue_position"
      let msg ← zOptStr fields "message"
      pure ⟨jid, st, etm, qp, msg⟩
    else none
  | _ => none

/-! ### APIClient.query / APIClient.pollJob (frontend/lib/api.ts) -/

/-- One reply of the job-status endpoint: the HTTP status and the parsed JSON
body. -/
structure JobReply where
  status : Nat
  body : Json

/-- JS String() conversion, used when a job error message is rendered.  The
claims only exercise the string case; the renderings of the other shapes are
approximations (noted here) of the JS ones. -/
def jsToString : Json → String
  | .jstr s => s
  | .jnull => "null"
  | .jbool b => if b then "true" else "false"
  | .jnum q => toString q
  | .jarr _ => ""
  | .jobj _ => "[object Object]"

/-- The ways APIClient.query / APIClient.pollJob can finish: resolve with the
validated result, or reject with one of the thrown errors.  streamEnded is a
model artifact for an exhausted reply stream (never reached in the claims). -/
inductive PollOutcome where
  | success (r : Json)
  | validationFailed (e : VError)
  | jobFailed (msg : String)
  | jobNotFound
  | timeout
  | jsTypeErr
  | submitFailed (status : Nat)
  | streamEnded

/-- Observable behaviour of one pollJob run: number of polls of the job
endpoint, the sleeps with their durations, and the values passed to the
progress callback. -/
structure PollTrace where
  polls : Nat
  sleeps : List ℚ
  progress : List Json

/-- APIClient.pollJob (frontend/lib/api.ts), one recursive step per fetch of
the job endpoint.  The second argument counts the remaining attempts
(maxAttempts - attempts); the source increments attempts - and sleeps - only
on a 202 response, returns the validated data.result on 200, throws
data.error on 500, throws on 404, and falls through (polling again without
counting the attempt) on any other status.  Errors thrown in the loop body
are caught, logged and re-thrown, so they all propagate. -/
def pollJobAux (hasCallback : Bool) (intervalMs : ℚ) :
    List JobReply → Nat → PollOutcome × PollTrace
  | _, 0 => (.timeout, ⟨0, [], []⟩)
  | [], _ + 1 => (.streamEnded, ⟨0, [], []⟩)
  | r :: rest, rem + 1 =>
    if r.status = 200 then
      match jsGetField r.body "result" with
      | .error _ => (.jsTypeErr, ⟨1, [], []⟩)
      | .ok v =>
        match validateQueryResponseOpt v with
        | .ok q => (.success q, ⟨1, [], []⟩)
        | .error e => (.validationFailed e, ⟨1, [], []⟩)
    else if r.status = 500 then
      match jsGetField r.body "error" with
      | .error _ => (.jsTypeErr, ⟨1, [], []⟩)
      | .ok v =>
        (.jobFailed (match v with
          | some m => if truthy m then jsToString m else "Job processing failed"
          | none => "Job processing failed"), ⟨1, [], []⟩)
    else if r.status = 202 then
      match jsGetField r.body "progress" with
      | .error _ => (.jsTypeErr, ⟨1, [], []⟩)
      | .ok pv =>
        let next := pollJobAux hasCallback intervalMs rest rem
        (next.1, ⟨next.2.polls + 1, intervalMs :: next.2.sleeps,
          (if hasCallback then pv.toList else []) ++ next.2.progress⟩)
    else if r.status = 404 then (.jobNotFound, ⟨1, [], []⟩)
    else
      let next := pollJobAux hasCallback intervalMs rest (rem + 1)
      (next.1, ⟨next.2.polls + 1, next.2.sleeps, next.2.progress⟩)

/-- APIClient.pollJob entered with attempts = 0 and a maximum attempt count
(the source's default is 120). -/
def pollJob (hasCallback : Bool) (intervalMs : ℚ) (replies : List JobReply)
    (maxAttempts : Nat) : PollOutcome × PollTrace :=
  pollJobAux hasCallback intervalMs replies maxAttempts

def defaultMaxAttempts : Nat := 120

/-- APIClient.query (frontend/lib/api.ts): a 202 response reads the job body
(a null body makes the job_id access throw a TypeError) and enters pollJob
with jobData.poll_interval_ms || 500; any other 2xx response validates the
body directly; any other status throws.  A truthy non-numeric
poll_interval_ms is modelled as the default interval. -/
def queryModel (hasCallback : Bool) (maxAttempts : Nat) (status : Nat)
    (body : Json) (jobReplies : List JobReply) : PollOutcome × PollTrace :=
  if status = 202 then
    match body with
    | .jnull => (.jsTypeErr, ⟨0, [], []⟩)
    | _ =>
      let intervalMs : ℚ :=
        match jsGetField body "poll_interval_ms" with
        | .ok (some (.jnum q)) => if q = 0 then 500 else q
        | _ => 500
      pollJobAux hasCallback intervalMs jobReplies maxAttempts
  else if 200 ≤ status ∧ status ≤ 299 then
    match validateQueryResponse body with
    | .ok r => (.success r, ⟨0, [], []⟩)
    | .error e => (.validationFailed e, ⟨0, [], []⟩)
  else (.submitFailed status, ⟨0, [], []⟩)

/-! ### TypeSafeAPIClient.pollForResult (frontend/lib/api/client.ts)

Durations and the logical wall clock are modelled as integer milliseconds;
the clock advances only on the sleep at the top of each loop iteration. -/

/-- One reply of an endpoint as seen by TypeSafeAPIClient.request: HTTP status
and parsed JSON body. -/
structure ClientReply where
  status : Nat
  body : Json

/-- The observable ways pollForResult can finish.  Every error raised inside
the loop body - an APIError from a non-2xx status, a ValidationError from a
schema failure, and also the throw on a failed job status - is caught by the
loop's own catch clause and polling continues, so the only rejection that
escapes is the polling-timeout throw. -/
inductive ClientOutcome where
  | success (r : QueryResponse)
  | pollingTimeout
  | streamEnded

structure ClientTrace where
  polls : Nat
  sleeps : List Int
  progress : List AsyncJobResponse

/-- TypeSafeAPIClient.request with AsyncJobResponseSchema: non-2xx statuses
raise APIError and schema failures raise ValidationError; pollForResult
treats both alike, so they are conflated as none. -/
def requestAsyncJob (r : ClientReply) : Option AsyncJobResponse :=
  if 200 ≤ r.status ∧ r.status ≤ 299 then AsyncJobResponseSchema r.body else none

def requestQueryResponse (r : ClientReply) : Option QueryResponse :=
  if 200 ≤ r.status ∧ r.status ≤ 299 then QueryResponseSchema r.body else none

/-- TypeSafeAPIClient.pollForResult (frontend/lib/api/client.ts).  Each loop
iteration first checks the elapsed clock against maxPollingTime, then sleeps
pollingInterval and requests the job status; a completed status issues a
second request for the result in the same iteration; a failed status throws,
but inside the try whose catch continues polling; any request error also
continues polling. -/
def pollForResultAux (hasCallback : Bool) (intervalMs maxTimeMs : Int) :
    List ClientReply → Int → ClientOutcome × ClientTrace
  | replies, elapsed =>
    if elapsed < maxTimeMs then
      match replies with
      | [] => (.streamEnded, ⟨0, [], []⟩)
      | r :: rest =>
        match requestAsyncJob r with
        | none =>
          let next := pollForResultAux hasCallback intervalMs maxTimeMs rest (elapsed + intervalMs)
          (next.1, ⟨next.2.polls + 1, intervalMs :: next.2.sleeps, next.2.progress⟩)
        | some js =>
          let prog := if hasCallback then [js] else []
          if js.status = "completed" then
            match rest with
            | [] => (.streamEnded, ⟨1, [intervalMs], prog⟩)
            | r2 :: rest2 =>
              match requestQueryResponse r2 with
              | some q => (.success q, ⟨2, [intervalMs], prog⟩)
              | none =>
                let next := pollForResultAux hasCallback intervalMs maxTimeMs rest2 (elapsed + intervalMs)
                (next.1, ⟨next.2.polls + 2, intervalMs :: next.2.sleeps, prog ++ next.2.progress⟩)
          else
            let next := pollForResultAux hasCallback intervalMs maxTimeMs rest (elapsed + intervalMs)
            (next.1, ⟨next.2.polls + 1, intervalMs :: next.2.sleeps, prog ++ next.2.progress⟩)
    else (.pollingTimeout, ⟨0, [], []⟩)

/-- pollForResult entered with a zero clock.  The source's defaults are
pollingInterval = 1000 and maxPollingTime = 30000. -/
def pollForResult (hasCallback : Bool) (intervalMs maxTimeMs : Int)
    (replies : List ClientReply) : ClientOutcome × ClientTrace :=
  pollForResultAux hasCallback intervalMs maxTimeMs replies 0

def defaultPollingInterval : Int := 1000

def defaultMaxPollingTime : Int := 30000

/-! ### FetchWrapper.fetch (frontend/lib/api/fetch-wrapper.ts)

Retry delays are modelled as integer milliseconds. -/

/-- What one attempt of the underlying fetch produces: an HTTP response with a
parsed body, an AbortError from the timeout signal, or another transport
failure. -/
inductive FetchReply where
  | resp (status : Nat) (body : Json)
  | abortErr
  | netErr

/-- The observable ways FetchWrapper.fetch can finish: resolve with a 2xx
response, or raise the FetchError of a non-2xx response (preserving status
and parsed error body), the AbortError of a timeout, or the last transport
error. -/
inductive FetchOutcome where
  | success (status : Nat) (body : Json)
  | httpError (status : Nat) (data : Json)
  | aborted
  | transportErr
  | streamEnded

/-- Observable behaviour of one FetchWrapper.fetch run: how many times the
underlying fetch was invoked, and the sleeps before retries with their
durations. -/
structure FetchTrace where
  calls : Nat
  delays : List Int

/-- FetchWrapper.fetch (frontend/lib/api/fetch-wrapper.ts): attempts run from
attempt = 0 up to retries; every attempt after the first sleeps
retryDelay * attempt before fetching (the source's linear backoff); a 2xx
response resolves; a 4xx response raises immediately with no retry; an
AbortError raises immediately; any other failure retries until
attempt = retries, when the last error is raised. -/
def fetchAux (retryDelay : Int) (retries : Nat) :
    List FetchReply → Nat → FetchOutcome × FetchTrace
  | [], _ => (.streamEnded, ⟨0, []⟩)
  | rep :: rest, attempt =>
    let d : List Int := if attempt = 0 then [] else [retryDelay * (attempt : Int)]
    match rep with
    | .resp status body =>
      if 200 ≤ status ∧ status ≤ 299 then (.success status body, ⟨1, d⟩)
      else if 400 ≤ status ∧ status ≤ 499 then (.httpError status body, ⟨1, d⟩)
      else if attempt = retries then (.httpError status body, ⟨1, d⟩)
      else
        let next := fetchAux retryDelay retries rest (attempt + 1)
        (next.1, ⟨next.2.calls + 1, d ++ next.2.delays⟩)
    | .abortErr => (.aborted, ⟨1, d⟩)
    | .netErr =>
      if attempt = retries then (.transportErr, ⟨1, d⟩)
      else
        let next := fetchAux retryDelay retries rest (attempt + 1)
        (next.1, ⟨next.2.calls + 1, d ++ next.2.delays⟩)

/-- FetchWrapper.fetch entered at attempt 0.  The source's constructor
defaults are retries = 2 and retryDelay = 1000. -/
def fetchWrapperRun (retryDelay : Int) (retries : Nat) (replies : List FetchReply) :
    FetchOutcome × FetchTrace :=
  fetchAux retryDelay retries replies 0

def defaultRetries : Nat := 2

def defaultRetryDelay : Int := 1000

/-! ### Safe formatters (frontend/lib/safe-formatters.ts) -/

/-- A JavaScript number at runtime: finite (an exact rational), NaN, or an
infinity. -/
inductive JSNum where
  | fin (q : ℚ)
  | nan
  | posInf
  | negInf

def JSNum.isFinite : JSNum → Bool
  | .fin _ => true
  | _ => false

/-- FormattableValue (frontend/lib/safe-formatters.ts):
number | string | null | undefined. -/
inductive FormattableValue where
  | num (n : JSNum)
  | str (s : String)
  | nullV
  | undef

def hexDigitVal (c : Char) : Option Nat :=
  if c.isDigit then some (c.toNat - 48)
  else if 'a' ≤ c ∧ c ≤ 'f' then some (c.toNat - 87)
  else if 'A' ≤ c ∧ c ≤ 'F' then some (c.toNat - 55)
  else none

def parseRadixFull (radix : Nat) (cs : List Char) : Option Nat :=
  if cs.isEmpty then none
  else cs.foldl (fun acc c =>
    match acc, hexDigitVal c with
    | some a, some v => if v < radix then some (a * radix + v) else none
    | _, _ => none) (some 0)

def radixNum (radix : Nat) (t : List Char) : JSNum :=
  match parseRadixFull radix t with
  | some n => .fin n
  | none => .nan

def parseExpFull (cs : List Char) : Option Int :=
  let signAndRest : Int × List Char :=
    match cs with
    | '+' :: t => (1, t)
    | '-' :: t => (-1, t)
    | _ => (1, cs)
  let ds := (takeDigits signAndRest.2).1
  let rest := (takeDigits signAndRest.2).2
  if ds.isEmpty ∨ ¬ rest.isEmpty then none
  else some (signAndRest.1 * digitsToNat ds)

/-- The body of a JS decimal literal as accepted by Number(): digits with
optional fraction and exponent, the whole input consumed. -/
def parseDecFull (sign : Int) (cs : List Char) : Option ℚ :=
  let ip := (takeDigits cs).1
  let cs2 := (takeDigits cs).2
  let fpAndRest : List Char × List Char :=
    match cs2 with
    | '.' :: t => takeDigits t
    | _ => ([], cs2)
  let fp := fpAndRest.1
  let cs3 := fpAndRest.2
  if ip.isEmpty ∧ fp.isEmpty then none
  else
    match cs3 with
    | [] => some (ratOfDigits sign ip fp 0)
    | 'e' :: t => (parseExpFull t).map (fun e => ratOfDigits sign ip fp e)
    | 'E' :: t => (parseExpFull t).map (fun e => ratOfDigits sign ip fp e)
    | _ => none

/-- The JS Number() conversion of a string: trim whitespace; empty is 0; the
whole remainder must be a numeric literal (signed decimal, signed Infinity,
or an unsigned 0x/0o/0b radix literal); anything else is NaN. -/
def jsNumberOfString (s : String) : JSNum :=
  let cs := ((s.data.dropWhile jsWhitespace).reverse.dropWhile jsWhitespace).reverse
  match cs with
  | [] => .fin 0
  | '0' :: 'x' :: t => radixNum 16 t
  | '0' :: 'X' :: t => radixNum 16 t
  | '0' :: 'o' :: t => radixNum 8 t
  | '0' :: 'O' :: t => radixNum 8 t
  | '0' :: 'b' :: t => radixNum 2 t
  | '0' :: 'B' :: t => radixNum 2 t
  | _ =>
    let signAndRest : Int × List Char :=
      match cs with
      | '+' :: t => ((1 : Int), t)
      | '-' :: t => ((-1 : Int), t)
      | _ => ((1 : Int), cs)
    if signAndRest.2 = "Infinity".data then
      (if signAndRest.1 = 1 then .posInf else .negInf)
    else
      match parseDecFull signAndRest.1 signAndRest.2 with
      | some q => .fin q
      | none => .nan

/-- ensureNumeric (frontend/lib/safe-formatters.ts): null and undefined give
the default; strings are converted with Number; a non-finite result gives the
default. -/
def ensureNumeric (value : FormattableValue) (defaultValue : JSNum) : JSNum :=
  match value with
  | .nullV => defaultValue
  | .undef => defaultValue
  | .str s => let n := jsNumberOfString s; if n.isFinite then n else defaultValue
  | .num n => if n.isFinite then n else defaultValue

/-- Number.prototype.toFixed for an exact rational: round the scaled value to
the nearest integer, ties toward positive infinity (ECMAScript picks the
larger candidate), and print with exactly the requested fraction digits.  The
huge-magnitude scientific-notation branch and the minus sign of a negative
zero result are not modelled; the claims never inspect those digits. -/
def toFixedQ (q : ℚ) (d : Nat) : String :=
  let n : Int := Int.floor (q * (10 : ℚ) ^ d + mkRat 1 2)
  let sign := if n < 0 then "-" else ""
  let m := n.natAbs
  let ip := m / 10 ^ d
  let fp := m % 10 ^ d
  if d = 0 then sign ++ toString ip
  else sign ++ toString ip ++ "." ++
    String.mk (List.replicate (d - (toString fp).length) '0') ++ toString fp

def isNonzeroDigit (c : Char) : Bool :=
  decide ('1' ≤ c ∧ c ≤ '9')

def dotAfterDigits : List Char → Bool
  | [] => false
  | c :: rest => if c = '.' then true else if c.isDigit then dotAfterDigits rest else false

/-- The trim regex of safeToFixed, replacing a match of trailing zeros that
follow a nonzero fraction digit with just the digits before the zeros. -/
def trimTrailingZeros (s : String) : String :=
  let r := s.data.reverse
  let stripped := r.dropWhile (fun c => c == '0')
  if stripped.length < r.length then
    match stripped with
    | c :: rest =>
      if isNonzeroDigit c && dotAfterDigits rest then String.mk stripped.reverse else s
    | [] => s
  else s

/-- The second replace of safeToFixed, dropping one trailing dot. -/
def stripTrailingDot (s : String) : String :=
  match s.data.reverse with
  | '.' :: rest => String.mk rest.reverse
  | _ => s

def toFixedTrimmed (q : ℚ) (decimals : Nat) (trim : Bool) : String :=
  let out := toFixedQ q decimals
  if trim ∧ 0 < decimals then stripTrailingDot (trimTrailingZeros out) else out

/-- safeToFixed (frontend/lib/safe-formatters.ts): null and undefined give the
fallback; strings are converted with Number; non-finite values give the
fallback; finite values are formatted with toFixed, optionally trimming
trailing zeros.  The source's try/catch around toFixed can fire only for an
out-of-range digit count, which a Nat digit count excludes. -/
def safeToFixed (value : FormattableValue) (decimals : Nat) (trim : Bool)
    (fallback : String) : String :=
  match value with
  | .nullV => fallback
  | .undef => fallback
  | .str s =>
    match jsNumberOfString s with
    | .fin q => toFixedTrimmed q decimals trim
    | _ => fallback
  | .num n =>
    match n with
    | .fin q => toFixedTrimmed q decimals trim
    | _ => fallback

/-- The Intl.NumberFormat currency path, modelled as a dollar-prefixed
fixed-point rendering; the claims rely only on when it is reached, never on
its digits. -/
def intlCurrencyFormat (q : ℚ) (minDigits : Nat) : String :=
  "$" ++ toFixedQ q minDigits

/-- safeCurrency (frontend/lib/safe-formatters.ts): ensureNumeric with a NaN
default, fallback on a non-finite result, else currency formatting. -/
def safeCurrency (value : FormattableValue) (minDigits : Nat) (fallback : String) : String :=
  match ensureNumeric value .nan with
  | .fin q => intlCurrencyFormat q minDigits
  | _ => fallback

/-- The Intl.NumberFormat percent path, modelled as fixed-point on the scaled
value; the claims rely only on when it is reached. -/
def intlPercentFormat (pct : ℚ) (digits : Nat) : String :=
  toFixedQ (pct * 100) digits ++ "%"

/-- safePercentage (frontend/lib/safe-formatters.ts): expectsFraction scales a
0-1 input, else the input is already 0-100. -/
def safePercentage (value : FormattableValue) (digits : Nat) (expectsFraction : Bool)
    (fallback : String) : String :=
  match ensureNumeric value .nan with
  | .fin raw =>
    let pct := if expectsFraction then raw else raw / 100
    intlPercentFormat pct digits
  | _ => fallback

inductive TimeUnit where
  | ms
  | s
  | auto

/-- safeTime (frontend/lib/safe-formatters.ts): non-finite input gives the
fallback; the ms unit formats directly, auto scales through ms, s, m, h, and
the default unit converts milliseconds to seconds. -/
def safeTime (valueMs : FormattableValue) (unit : TimeUnit) (decimals : Nat)
    (fallback : String) : String :=
  match ensureNumeric valueMs .nan with
  | .fin num =>
    match unit with
    | .ms => safeToFixed (.num (.fin num)) decimals false "" ++ "ms"
    | .auto =>
      if num < 1000 then safeToFixed (.num (.fin num)) 0 false "" ++ "ms"
      else if num / 1000 < 60 then safeToFixed (.num (.fin (num / 1000))) decimals false "" ++ "s"
      else if num / 1000 / 60 < 60 then
        safeToFixed (.num (.fin (num / 1000 / 60))) decimals false "" ++ "m"
      else safeToFixed (.num (.fin (num / 1000 / 60 / 60))) decimals false "" ++ "h"
    | .s => safeToFixed (.num (.fin (num / 1000))) decimals false "" ++ "s"
  | _ => fallback

/-- The inputs the spec calls invalid: null, undefined, non-finite numbers,
and strings that do not convert to a finite number. -/
def isInvalidInput : FormattableValue → Bool
  | .nullV => true
  | .undef => true
  | .num n => ! n.isFinite
  | .str s => ! (jsNumberOfString s).isFinite

/-! ### Shared example data -/

/-- A well-formed QueryResponse body (as validateQueryResponse checks it). -/
def exampleResult : Json := .jobj [("request_id", .jstr "r1"), ("answer", .jstr "y"),
  ("confidence", .jnum 1), ("winner_model", .jstr "m1"),
  ("model_metrics", .jarr [.jobj [("confidence", .jnum (mkRat 9 10))]])]

/-- A completed job reply body embedding the result. -/
def exampleDoneBody : Json := .jobj [("result", exampleResult)]

/-- A processing job reply body reporting 50 percent progress. -/
def exampleProcessingBody : Json := .jobj [("progress", .jnum 50)]

/-- A job-status reply of the typed client with status processing. -/
def exampleProcessingReply : ClientReply :=
  ⟨200, .jobj [("job_id", .jstr "abc"), ("status", .jstr "processing")]⟩

/-- A job-status reply of the typed client with status failed and a server
message. -/
def exampleFailedReply : ClientReply :=
  ⟨200, .jobj [("job_id", .jstr "abc"), ("status", .jstr "failed"),
    ("message", .jstr "boom")]⟩

/-- A job-endpoint reply reporting job failure (HTTP 500 with an error
message), as APIClient.pollJob reads it. -/
def exampleJobFailedReply : JobReply := ⟨500, .jobj [("error", .jstr "boom")]⟩

/-- An otherwise-valid response body whose top-level confidence is out of
range. -/
def exampleBadTopFields : List (String × Json) :=
  [("request_id", .jstr "r1"), ("answer", .jstr "y"), ("confidence", .jnum 2),
   ("winner_model", .jstr "m1"), ("model_metrics", .jarr [])]

/-- An otherwise-valid response body whose second metric carries an
out-of-range confidence. -/
def exampleBadMetricFields : List (String × Json) :=
  [("request_id", .jstr "r1"), ("answer", .jstr "y"), ("confidence", .jnum (mkRat 1 2)),
   ("winner_model", .jstr "m1"),
   ("model_metrics", .jarr [.jobj [("confidence", .jnum (mkRat 1 2))],
     .jobj [("confidence", .jnum 3)]])]

/-- An otherwise-valid response body whose confidence is the numeric string
0.42. -/
def exampleStrConfFields : List (String × Json) :=
  [("request_id", .jstr "r1"), ("answer", .jstr "y"), ("confidence", .jstr "0.42"),
   ("winner_model", .jstr "m1"), ("model_metrics", .jarr [])]

/-- A response body whose single model_metrics element carries only the model
name, no confidence. -/
def exampleNoConfResponse : Json := .jobj [("request_id", .jstr "r1"), ("answer", .jstr "y"),
  ("confidence", .jnum (mkRat 9 10)), ("models_used", .jarr [.jstr "m1"]),
  ("winner_model", .jstr "m1"), ("response_time_ms", .jnum 220),
  ("total_cost", .jnum (mkRat 1 100)),
  ("model_metrics", .jarr [.jobj [("model", .jstr "m1")]])]

/-! ### Helper lemmas -/

lemma checkMetrics_ok_mem (ms : List Json) :
    ∀ (i : Nat), checkMetrics ms i = .ok () →
    ∀ m ∈ ms, ∃ c, jsGetField m "confidence" = .ok (some (.jnum c)) ∧ 0 ≤ c ∧ c ≤ 1 := by
  induction ms with
  | nil => intro i _ m hm; simp at hm
  | cons hd tl ih =>
    intro i h m hm
    rcases hg : jsGetField hd "confidence" with he | v
    · simp [checkMetrics, hg] at h
    · rcases List.mem_cons.mp hm with rfl | hm2
      · match v with
        | some (.jnum c) =>
          simp only [checkMetrics, hg] at h
          by_cases hr : 0 ≤ c ∧ c ≤ 1
          · exact ⟨c, hg, hr⟩
          · rw [if_neg hr] at h; simp at h
        | none => simp [checkMetrics, hg] at h
        | some .jnull => simp [checkMetrics, hg] at h
        | some (.jbool b) => simp [checkMetrics, hg] at h
        | some (.jstr s) => simp [checkMetrics, hg] at h
        | some (.jarr xs) => simp [checkMetrics, hg] at h
        | some (.jobj fs) => simp [checkMetrics, hg] at h
      · match v with
        | some (.jnum c) =>
          simp only [checkMetrics, hg] at h
          by_cases hr : 0 ≤ c ∧ c ≤ 1
          · rw [if_pos hr] at h; exact ih (i + 1) h m hm2
          · rw [if_neg hr] at h; simp at h
        | none => simp [checkMetrics, hg] at h
        | some .jnull => simp [checkMetrics, hg] at h
        | some (.jbool b) => simp [checkMetrics, hg] at h
        | some (.jstr s) => simp [checkMetrics, hg] at h
        | some (.jarr xs) => simp [checkMetrics, hg] at h
        | some (.jobj fs) => simp [checkMetrics, hg] at h

lemma checkMetrics_first_offender (good : List Json) :
    ∀ (i : Nat) (bad : Json) (rest : List Json) (c : ℚ),
    (∀ m ∈ good, ∃ cm, jsGetField m "confidence" = .ok (some (.jnum cm)) ∧ 0 ≤ cm ∧ cm ≤ 1) →
    jsGetField bad "confidence" = .ok (some (.jnum c)) → ¬(0 ≤ c ∧ c ≤ 1) →
    checkMetrics (good ++ bad :: rest) i =
      .error (.metricConfidenceInvalid (i + good.length) (some (.jnum c))) := by
  induction good with
  | nil =>
    intro i bad rest c _ hb hr
    simp only [List.nil_append, checkMetrics, hb, if_neg hr, List.length_nil, Nat.add_zero]
  | cons hd tl ih =>
    intro i bad rest c hgood hb hr
    obtain ⟨cm, hm, hrange⟩ := hgood hd (by simp)
    have htl : ∀ m ∈ tl, ∃ cm, jsGetField m "confidence" = .ok (some (.jnum cm)) ∧
        0 ≤ cm ∧ cm ≤ 1 := fun m hm2 => hgood m (by simp [hm2])
    simp only [List.cons_append, checkMetrics, hm, if_pos hrange, List.append_eq]
    rw [ih (i + 1) bad rest c htl hb hr]
    simp only [List.length_cons]
    congr 2
    omega

lemma checkTopConfidence_ok (fields : List (String × Json)) :
    checkTopConfidence fields = .ok () →
    ∃ c, lookupField fields "confidence" = some (.jnum c) ∧ 0 ≤ c ∧ c ≤ 1 := by
  intro h
  rcases hg : lookupField fields "confidence" with _ | v
  · simp [checkTopConfidence, hg] at h
  · match v with
    | .jnum c =>
      simp only [checkTopConfidence, hg] at h
      by_cases hr : 0 ≤ c ∧ c ≤ 1
      · exact ⟨c, rfl, hr⟩
      · rw [if_neg hr] at h; simp at h
    | .jnull => simp [checkTopConfidence, hg] at h
    | .jbool b => simp [checkTopConfidence, hg] at h
    | .jstr s => simp [checkTopConfidence, hg] at h
    | .jarr xs => simp [checkTopConfidence, hg] at h
    | .jobj fs => simp [checkTopConfidence, hg] at h

lemma validate_ok_inv (fields : List (String × Json)) (r : Json)
    (h : validateQueryResponse (.jobj fields) = .ok r) :
    r = .jobj fields ∧ checkTopConfidence fields = .ok () ∧
    ∃ ms, lookupField fields "model_metrics" = some (.jarr ms) ∧ checkMetrics ms 0 = .ok () := by
  simp only [validateQueryResponse] at h
  rcases h1 : requireNonEmptyString (lookupField fields "request_id") .missingRequestId with e1 | u1
  · rw [h1] at h; simp at h
  · rw [h1] at h
    rcases h2 : requireNonEmptyString (lookupField fields "answer") .missingAnswer with e2 | u2
    · rw [h2] at h; simp at h
    · rw [h2] at h
      rcases h3 : checkTopConfidence fields with e3 | u3
      · rw [h3] at h; simp at h
      · rw [h3] at h
        rcases h4 : requireNonEmptyString (lookupField fields "winner_model") .missingWinnerModel with e4 | u4
        · rw [h4] at h; simp at h
        · rw [h4] at h
          rcases h5 : lookupField fields "model_metrics" with _ | v
          · rw [h5] at h; simp at h
          · rw [h5] at h
            match v with
            | .jarr ms =>
              simp at h
              rcases h6 : checkMetrics ms 0 with e6 | u6
              · rw [h6] at h; simp at h
              · rw [h6] at h; simp at h
                refine ⟨h.symm, ?_, ms, rfl, ?_⟩
                · cases u3; rfl
                · cases u6; exact h6
            | .jnull => simp at h
            | .jbool b => simp at h
            | .jnum q => simp at h
            | .jstr s => simp at h
            | .jobj fs => simp at h

lemma validate_top_range_error (fields : List (String × Json)) (c : ℚ)
    (h1 : requireNonEmptyString (lookupField fields "request_id") .missingRequestId = .ok ())
    (h2 : requireNonEmptyString (lookupField fields "answer") .missingAnswer = .ok ())
    (hc : lookupField fields "confidence" = some (.jnum c)) (hr : ¬(0 ≤ c ∧ c ≤ 1)) :
    validateQueryResponse (.jobj fields) = .error (.invalidConfidence (some (.jnum c))) := by
  simp only [validateQueryResponse, h1, h2, checkTopConfidence, hc, if_neg hr]

lemma validate_metric_range_error (fields : List (String × Json)) (good : List Json)
    (bad : Json) (rest : List Json) (c : ℚ)
    (h1 : requireNonEmptyString (lookupField fields "request_id") .missingRequestId = .ok ())
    (h2 : requireNonEmptyString (lookupField fields "answer") .missingAnswer = .ok ())
    (h3 : checkTopConfidence fields = .ok ())
    (h4 : requireNonEmptyString (lookupField fields "winner_model") .missingWinnerModel = .ok ())
    (h5 : lookupField fields "model_metrics" = some (.jarr (good ++ bad :: rest)))
    (hgood : ∀ m ∈ good, ∃ cm, jsGetField m "confidence" = .ok (some (.jnum cm)) ∧ 0 ≤ cm ∧ cm ≤ 1)
    (hb : jsGetField bad "confidence" = .ok (some (.jnum c)))
    (hr : ¬(0 ≤ c ∧ c ≤ 1)) :
    validateQueryResponse (.jobj fields) =
      .error (.metricConfidenceInvalid good.length (some (.jnum c))) := by
  have hcm := checkMetrics_first_offender good 0 bad rest c hgood hb hr
  rw [Nat.zero_add] at hcm
  simp only [validateQueryResponse, h1, h2, h3, h4, h5, hcm]

lemma pollJobAux_processing_done (hasCb : Bool) (i : ℚ) (pb db r pv : Json)
    (rest : List JobReply)
    (hp : jsGetField pb "progress" = .ok (some pv))
    (hd : jsGetField db "result" = .ok (some r))
    (hv : validateQueryResponse r = .ok r) :
    ∀ (N rem : Nat), N < rem →
    pollJobAux hasCb i (List.replicate N ⟨202, pb⟩ ++ ⟨200, db⟩ :: rest) rem =
      (.success r, ⟨N + 1, List.replicate N i, if hasCb then List.replicate N pv else []⟩) := by
  intro N
  induction N with
  | zero =>
    intro rem hrem
    cases rem with
    | zero => omega
    | succ n =>
      simp [pollJobAux, hd, hv, validateQueryResponseOpt]
  | succ n ih =>
    intro rem hrem
    cases rem with
    | zero => omega
    | succ m =>
      have hn : n < m := by omega
      simp only [List.replicate_succ, List.cons_append, pollJobAux, hp, List.append_eq]
      norm_num
      rw [ih m hn]
      cases hasCb <;> simp [List.replicate_succ]

lemma pollJobAux_always_processing (hasCb : Bool) (i : ℚ) (pb pv : Json)
    (hp : jsGetField pb "progress" = .ok (some pv)) :
    ∀ (rem k : Nat) (rest : List JobReply), rem ≤ k →
    pollJobAux hasCb i (List.replicate k ⟨202, pb⟩ ++ rest) rem =
      (.timeout, ⟨rem, List.replicate rem i, if hasCb then List.replicate rem pv else []⟩) := by
  intro rem
  induction rem with
  | zero => intro k rest _; simp [pollJobAux]
  | succ n ih =>
    intro k rest hk
    cases k with
    | zero => omega
    | succ m =>
      simp only [List.replicate_succ, List.cons_append, pollJobAux, hp, List.append_eq]
      norm_num
      rw [ih m rest (by omega)]
      cases hasCb <;> simp [List.replicate_succ]

/-- The linear-backoff delays of the attempts after attempt a: the j-th entry
is retryDelay * (a + j + 1). -/
def retryDelays (d : Int) (a k : Nat) : List Int :=
  (List.range k).map (fun n => d * ((a + n + 1 : Nat) : Int))

/-- The sleep performed at the start of attempt a (none for the first
attempt). -/
def headDelay (d : Int) (a : Nat) : List Int :=
  if a = 0 then [] else [d * (a : Int)]

lemma retryDelays_cons (d : Int) (a k : Nat) :
    d * ((a + 1 : Nat) : Int) :: retryDelays d (a + 1) k = retryDelays d a (k + 1) := by
  simp only [retryDelays, List.range_succ_eq_map, List.map_cons, List.map_map]
  have hfun : (fun n => d * ((a + 1 + n + 1 : Nat) : Int)) =
      ((fun n => d * ((a + n + 1 : Nat) : Int)) ∘ Nat.succ) := by
    funext n
    simp only [Function.comp_apply]
    congr 2
    omega
  rw [hfun]

/-- The attempt results FetchWrapper.fetch retries on: a response with a
server-error status (≥ 500), or a transport-level failure; an AbortError is
raised immediately and never retried. -/
def isRetryFailure : FetchReply → Bool
  | .resp status _ => decide (500 ≤ status)
  | .netErr => true
  | .abortErr => false

/-- The error FetchWrapper.fetch raises when its final attempt also fails:
the FetchError of the response (status and parsed body preserved), or the
transport error itself. -/
def lastErrorOutcome : FetchReply → FetchOutcome
  | .resp status body => .httpError status body
  | .netErr => .transportErr
  | .abortErr => .aborted

lemma fetchAux_retry_success (d : Int) (retries : Nat)
    (st2 : Nat) (body2 : Json) (rest : List FetchReply)
    (h2a : 200 ≤ st2) (h2b : st2 ≤ 299) :
    ∀ (fails : List FetchReply), (∀ f ∈ fails, isRetryFailure f = true) →
    ∀ a : Nat, a + fails.length ≤ retries →
    fetchAux d retries (fails ++ .resp st2 body2 :: rest) a =
      (.success st2 body2, ⟨fails.length + 1, headDelay d a ++ retryDelays d a fails.length⟩) := by
  intro fails
  induction fails with
  | nil =>
    intro _ a _
    simp only [List.nil_append, fetchAux]
    rw [if_pos ⟨h2a, h2b⟩]
    simp [headDelay, retryDelays]
  | cons f fs ih =>
    intro hfs a ha
    have hf : isRetryFailure f = true := hfs f (by simp)
    have hfs2 : ∀ g ∈ fs, isRetryFailure g = true := fun g hg => hfs g (by simp [hg])
    simp only [List.length_cons] at ha
    have hne : ¬(a = retries) := by omega
    have hh : headDelay d (a + 1) ++ retryDelays d (a + 1) fs.length =
        retryDelays d a (fs.length + 1) := by
      simp only [headDelay, if_neg (Nat.succ_ne_zero a), List.singleton_append]
      exact retryDelays_cons d a fs.length
    match f with
    | .resp st body =>
      have h5 : 500 ≤ st := by simpa [isRetryFailure] using hf
      have hno2 : ¬(200 ≤ st ∧ st ≤ 299) := by omega
      have hno4 : ¬(400 ≤ st ∧ st ≤ 499) := by omega
      simp only [List.cons_append, fetchAux, List.append_eq]
      rw [if_neg hno2, if_neg hno4, if_neg hne]
      rw [ih hfs2 (a + 1) (by omega)]
      simp only [hh, List.length_cons]
      rfl
    | .netErr =>
      simp only [List.cons_append, fetchAux, List.append_eq]
      rw [if_neg hne]
      rw [ih hfs2 (a + 1) (by omega)]
      simp only [hh, List.length_cons]
      rfl
    | .abortErr => simp [isRetryFailure] at hf

lemma fetchAux_retry_exhaust (d : Int) (retries : Nat) (last : FetchReply)
    (rest : List FetchReply) (hlast : isRetryFailure last = true) :
    ∀ (fails : List FetchReply), (∀ f ∈ fails, isRetryFailure f = true) →
    ∀ a : Nat, a + fails.length = retries →
    fetchAux d retries (fails ++ last :: rest) a =
      (lastErrorOutcome last, ⟨fails.length + 1, headDelay d a ++ retryDelays d a fails.length⟩) := by
  intro fails
  induction fails with
  | nil =>
    intro _ a ha
    have haeq : a = retries := by simpa using ha
    match last with
    | .resp stL bodyL =>
      have h5L : 500 ≤ stL := by simpa [isRetryFailure] using hlast
      have hno2 : ¬(200 ≤ stL ∧ stL ≤ 299) := by omega
      have hno4 : ¬(400 ≤ stL ∧ stL ≤ 499) := by omega
      simp only [List.nil_append, fetchAux]
      rw [if_neg hno2, if_neg hno4, if_pos haeq]
      simp [headDelay, retryDelays, lastErrorOutcome]
    | .netErr =>
      simp only [List.nil_append, fetchAux]
      rw [if_pos haeq]
      simp [headDelay, retryDelays, lastErrorOutcome]
    | .abortErr => simp [isRetryFailure] at hlast
  | cons f fs ih =>
    intro hfs a ha
    have hf : isRetryFailure f = true := hfs f (by simp)
    have hfs2 : ∀ g ∈ fs, isRetryFailure g = true := fun g hg => hfs g (by simp [hg])
    simp only [List.length_cons] at ha
    have hne : ¬(a = retries) := by omega
    have hh : headDelay d (a + 1) ++ retryDelays d (a + 1) fs.length =
        retryDelays d a (fs.length + 1) := by
      simp only [headDelay, if_neg (Nat.succ_ne_zero a), List.singleton_append]
      exact retryDelays_cons d a fs.length
    match f with
    | .resp st body =>
      have h5 : 500 ≤ st := by simpa [isRetryFailure] using hf
      have hno2 : ¬(200 ≤ st ∧ st ≤ 299) := by omega
      have hno4 : ¬(400 ≤ st ∧ st ≤ 499) := by omega
      simp only [List.cons_append, fetchAux, List.append_eq]
      rw [if_neg hno2, if_neg hno4, if_neg hne]
      rw [ih hfs2 (a + 1) (by omega)]
      simp only [hh, List.length_cons]
      rfl
    | .netErr =>
      simp only [List.cons_append, fetchAux, List.append_eq]
      rw [if_neg hne]
      rw [ih hfs2 (a + 1) (by omega)]
      simp only [hh, List.length_cons]
      rfl
    | .abortErr => simp [isRetryFailure] at hf

/-! ### The claims -/

/-- Claim C1: validateQueryResponse returns successfully only if the response
confidence and the confidence of every model_metrics element lie in [0,1]
(the check running over each element); a response whose confidence is a
number outside the range is rejected with the error naming the confidence
field and the offending value, and a response whose first offending metric
sits at some index is rejected with the error naming that index and value. -/
theorem claim1_range_invariant :
    (∀ (j r : Json), validateQueryResponse j = .ok r →
      ∃ fields c ms, j = .jobj fields ∧
        lookupField fields "confidence" = some (.jnum c) ∧ 0 ≤ c ∧ c ≤ 1 ∧
        lookupField fields "model_metrics" = some (.jarr ms) ∧
        ∀ m ∈ ms, ∃ cm, jsGetField m "confidence" = .ok (some (.jnum cm)) ∧ 0 ≤ cm ∧ cm ≤ 1) ∧
    (∀ (fields : List (String × Json)) (c : ℚ),
      requireNonEmptyString (lookupField fields "request_id") .missingRequestId = .ok () →
      requireNonEmptyString (lookupField fields "answer") .missingAnswer = .ok () →
      lookupField fields "confidence" = some (.jnum c) → ¬(0 ≤ c ∧ c ≤ 1) →
      validateQueryResponse (.jobj fields) = .error (.invalidConfidence (some (.jnum c)))) ∧
    (∀ (fields : List (String × Json)) (good : List Json) (bad : Json) (rest : List Json) (c : ℚ),
      requireNonEmptyString (lookupField fields "request_id") .missingRequestId = .ok () →
      requireNonEmptyString (lookupField fields "answer") .missingAnswer = .ok () →
      checkTopConfidence fields = .ok () →
      requireNonEmptyString (lookupField fields "winner_model") .missingWinnerModel = .ok () →
      lookupField fields "model_metrics" = some (.jarr (good ++ bad :: rest)) →
      (∀ m ∈ good, ∃ cm, jsGetField m "confidence" = .ok (some (.jnum cm)) ∧ 0 ≤ cm ∧ cm ≤ 1) →
      jsGetField bad "confidence" = .ok (some (.jnum c)) → ¬(0 ≤ c ∧ c ≤ 1) →
      validateQueryResponse (.jobj fields) =
        .error (.metricConfidenceInvalid good.length (some (.jnum c)))) := by
  refine ⟨?_, validate_top_range_error, validate_metric_range_error⟩
  intro j r h
  match j with
  | .jobj fields =>
    obtain ⟨_, hconf, ms, hms, hcm⟩ := validate_ok_inv fields r h
    obtain ⟨c, hc, hc0, hc1⟩ := checkTopConfidence_ok fields hconf
    exact ⟨fields, c, ms, rfl, hc, hc0, hc1, hms, checkMetrics_ok_mem ms 0 hcm⟩
  | .jnull => simp [validateQueryResponse] at h
  | .jbool b => simp [validateQueryResponse] at h
  | .jnum q => simp [validateQueryResponse] at h
  | .jstr s => simp [validateQueryResponse] at h
  | .jarr xs => simp [validateQueryResponse] at h

/-- Concrete instantiation of claim1_range_invariant: a valid response
satisfies the invariant, an out-of-range confidence is rejected naming the
field, and an out-of-range metric at index 1 is rejected naming the index. -/
theorem claim1_range_invariant_witness :
    (∃ fields c ms, exampleResult = Json.jobj fields ∧
      lookupField fields "confidence" = some (.jnum c) ∧ 0 ≤ c ∧ c ≤ 1 ∧
      lookupField fields "model_metrics" = some (.jarr ms) ∧
      ∀ m ∈ ms, ∃ cm, jsGetField m "confidence" = .ok (some (.jnum cm)) ∧ 0 ≤ cm ∧ cm ≤ 1) ∧
    validateQueryResponse (.jobj exampleBadTopFields) =
      .error (.invalidConfidence (some (.jnum 2))) ∧
    validateQueryResponse (.jobj exampleBadMetricFields) =
      .error (.metricConfidenceInvalid 1 (some (.jnum 3))) := by
  refine ⟨claim1_range_invariant.1 exampleResult exampleResult rfl, ?_, ?_⟩
  · exact claim1_range_invariant.2.1 exampleBadTopFields 2 rfl rfl rfl (by decide)
  · refine claim1_range_invariant.2.2 exampleBadMetricFields
      [.jobj [("confidence", .jnum (mkRat 1 2))]] (.jobj [("confidence", .jnum 3)]) [] 3
      rfl rfl rfl rfl rfl ?_ rfl (by decide)
    intro m hm
    rw [List.mem_singleton] at hm
    subst hm
    exact ⟨mkRat 1 2, rfl, by decide, by decide⟩

/-- Claim C2 (code bug): on a job-failed report, APIClient.pollJob rejects
with the server message and stops, but TypeSafeAPIClient.pollForResult
catches its own job-failed throw inside the polling loop and keeps polling:
with a permanently failed job at the default configuration it issues 30 more
polls and then rejects with the polling timeout instead of the job-failed
message. -/
theorem claim2_job_failed_outcomes :
    pollJob false 500 [exampleJobFailedReply] defaultMaxAttempts =
      (.jobFailed "boom", ⟨1, [], []⟩) ∧
    pollForResult false defaultPollingInterval defaultMaxPollingTime
        (List.replicate 30 exampleFailedReply) =
      (.pollingTimeout, ⟨30, List.replicate 30 1000, []⟩) := ⟨rfl, rfl⟩

set_option maxRecDepth 4000 in
/-- Claim C3 counterexample: with the default budget of 120 attempts, a job
that reports processing 120 times and then completes is not resolved after
121 polls as the claim (instantiated at N = 120) asserts; the 120th
processing response exhausts the attempts and the query rejects with the
timeout after exactly 120 polls. -/
theorem claim3_exact_polls_counterexample :
    queryModel true 120 202 (.jobj [("job_id", .jstr "abc"), ("poll_interval_ms", .jnum 500)])
        (List.replicate 120 ⟨202, exampleProcessingBody⟩ ++ [⟨200, exampleDoneBody⟩]) =
      (.timeout, ⟨120, List.replicate 120 (500 : ℚ), List.replicate 120 (Json.jnum 50)⟩) := by
  have h : queryModel true 120 202
      (.jobj [("job_id", .jstr "abc"), ("poll_interval_ms", .jnum 500)])
      (List.replicate 120 ⟨202, exampleProcessingBody⟩ ++ [⟨200, exampleDoneBody⟩]) =
      pollJobAux true 500
        (List.replicate 120 ⟨202, exampleProcessingBody⟩ ++ [⟨200, exampleDoneBody⟩]) 120 := rfl
  rw [h, pollJobAux_always_processing true 500 exampleProcessingBody (.jnum 50) rfl 120 120
    [⟨200, exampleDoneBody⟩] (le_refl 120)]
  simp

/-- Claim C3 (amended): for every N below the attempt budget (default 120), a
query accepted as a job whose status endpoint reports processing N times and
then completed with a valid embedded result resolves with the validated
result after exactly N+1 polls, sleeping the server-suggested interval
between consecutive polls, and invokes the progress callback once per
processing response that reports a progress value. -/
theorem claim3_exact_polls_amended (N : Nat) (i : ℚ) (jobFields : List (String × Json))
    (pb db r pv : Json)
    (hN : N < 120)
    (hpi : lookupField jobFields "poll_interval_ms" = some (.jnum i)) (hi0 : ¬ i = 0)
    (hp : jsGetField pb "progress" = .ok (some pv))
    (hd : jsGetField db "result" = .ok (some r))
    (hv : validateQueryResponse r = .ok r) :
    queryModel true 120 202 (.jobj jobFields) (List.replicate N ⟨202, pb⟩ ++ [⟨200, db⟩]) =
      (.success r, ⟨N + 1, List.replicate N i, List.replicate N pv⟩) := by
  have hq : queryModel true 120 202 (.jobj jobFields)
      (List.replicate N ⟨202, pb⟩ ++ [⟨200, db⟩]) =
      pollJobAux true i (List.replicate N ⟨202, pb⟩ ++ [⟨200, db⟩]) 120 := by
    simp [queryModel, jsGetField, hpi, hi0]
  rw [hq]
  have h := pollJobAux_processing_done true i pb db r pv [] hp hd hv N 120 hN
  simpa using h

/-- Concrete instantiation of claim3_exact_polls_amended at N = 2 with the
default 500 ms interval. -/
theorem claim3_exact_polls_witness :
    queryModel true 120 202 (.jobj [("job_id", .jstr "abc"), ("poll_interval_ms", .jnum 500)])
        (List.replicate 2 ⟨202, exampleProcessingBody⟩ ++ [⟨200, exampleDoneBody⟩]) =
      (.success exampleResult, ⟨3, List.replicate 2 (500 : ℚ), List.replicate 2 (Json.jnum 50)⟩) :=
  claim3_exact_polls_amended 2 500 _ _ _ _ _ (by norm_num) rfl (by norm_num) rfl rfl rfl

/-- Claim C4: with a permanently processing job endpoint both pollers
terminate: pollJob rejects with the timeout error after exactly its default
120 attempts (at the default 500 ms interval) and issues no further polls
even when more replies are available, and pollForResult stops polling once
the elapsed clock reaches the polling-time budget - with the default 30000 ms
budget at 1000 ms intervals it polls 30 times, with a configured 5000 ms
budget 5 times - and rejects with the polling-timeout error. -/
theorem claim4_polling_timeout :
    (∀ k : Nat, 120 ≤ k →
      pollJob false 500 (List.replicate k ⟨202, exampleProcessingBody⟩) defaultMaxAttempts =
        (.timeout, ⟨120, List.replicate 120 (500 : ℚ), []⟩)) ∧
    pollForResult false defaultPollingInterval defaultMaxPollingTime
        (List.replicate 30 exampleProcessingReply) =
      (.pollingTimeout, ⟨30, List.replicate 30 (1000 : Int), []⟩) ∧
    pollForResult false 1000 5000 (List.replicate 30 exampleProcessingReply) =
      (.pollingTimeout, ⟨5, List.replicate 5 (1000 : Int), []⟩) := by
  refine ⟨?_, rfl, rfl⟩
  intro k hk
  have h := pollJobAux_always_processing false 500 exampleProcessingBody (.jnum 50) rfl
    120 k [] hk
  rw [List.append_nil] at h
  simpa [pollJob, defaultMaxAttempts] using h

/-- Concrete instantiation of claim4_polling_timeout at a stream of exactly
120 processing replies. -/
theorem claim4_polling_timeout_witness :
    pollJob false 500 (List.replicate 120 ⟨202, exampleProcessingBody⟩) defaultMaxAttempts =
      (.timeout, ⟨120, List.replicate 120 (500 : ℚ), []⟩) :=
  claim4_polling_timeout.1 120 (le_refl 120)

/-- Claim C5: a response with a status in [400,500) is never retried: the
underlying fetch runs exactly once, no retry sleep happens, and the raised
error preserves the status code and the parsed error body, for every retry
configuration. -/
theorem claim5_no_retry_on_4xx (status : Nat) (body : Json) (rest : List FetchReply)
    (retryDelay : Int) (retries : Nat) (h4a : 400 ≤ status) (h4b : status ≤ 499) :
    fetchWrapperRun retryDelay retries (.resp status body :: rest) =
      (.httpError status body, ⟨1, []⟩) := by
  have hno2 : ¬(200 ≤ status ∧ status ≤ 299) := by omega
  simp only [fetchWrapperRun, fetchAux]
  rw [if_neg hno2, if_pos ⟨h4a, h4b⟩]
  simp

/-- Concrete instantiation of claim5_no_retry_on_4xx at a 422 response with
the default configuration. -/
theorem claim5_no_retry_witness :
    fetchWrapperRun defaultRetryDelay defaultRetries
        [.resp 422 (.jobj [("detail", .jstr "bad")])] =
      (.httpError 422 (.jobj [("detail", .jstr "bad")]), ⟨1, []⟩) :=
  claim5_no_retry_on_4xx 422 (.jobj [("detail", .jstr "bad")]) [] defaultRetryDelay
    defaultRetries (by norm_num) (by norm_num)

/-- Claim C6: attempts failing with a status ≥ 500 or with a transport-level
failure are retried with linear backoff - the sleep before the j-th retry is
retryDelay * j - up to retries times (the source defaults are retries = 2 and
retryDelay = 1000): for any stream of such retryable failures within the
budget, a subsequent attempt returning a success status resolves the wrapper
with that response after one fetch call per failure plus one, and when every
attempt fails the wrapper raises the error of the last attempt - the
FetchError of a 5xx response with its status and body, or the transport
error - after retries + 1 calls. -/
theorem claim6_retry_on_5xx :
    (∀ (fails : List FetchReply) (retries : Nat) (d : Int) (st2 : Nat) (body2 : Json),
      (∀ f ∈ fails, isRetryFailure f = true) → fails.length ≤ retries →
      200 ≤ st2 → st2 ≤ 299 →
      fetchWrapperRun d retries (fails ++ [.resp st2 body2]) =
        (.success st2 body2, ⟨fails.length + 1, retryDelays d 0 fails.length⟩)) ∧
    (∀ (fails : List FetchReply) (last : FetchReply) (retries : Nat) (d : Int)
      (rest : List FetchReply),
      (∀ f ∈ fails, isRetryFailure f = true) → isRetryFailure last = true →
      fails.length = retries →
      fetchWrapperRun d retries (fails ++ last :: rest) =
        (lastErrorOutcome last, ⟨retries + 1, retryDelays d 0 retries⟩)) := by
  constructor
  · intro fails retries d st2 body2 hfs hk h2a h2b
    have h := fetchAux_retry_success d retries st2 body2 [] h2a h2b fails hfs 0 (by omega)
    simpa [fetchWrapperRun, headDelay] using h
  · intro fails last retries d rest hfs hlast hlen
    have h := fetchAux_retry_exhaust d retries last rest hlast fails hfs 0 (by omega)
    rw [hlen] at h
    simpa [fetchWrapperRun, headDelay] using h

/-- Concrete instantiation of claim6_retry_on_5xx with the default
configuration, exercising both failure kinds: a transport failure then a 503
then a 200 resolve after two retries with delays 1000 and 2000; a 503, a
transport failure and a final transport failure raise the last (transport)
error after three calls, and a straight run of 5xx responses raises the last
response's error. -/
theorem claim6_retry_witness :
    fetchWrapperRun defaultRetryDelay defaultRetries
        ([.netErr, .resp 503 .jnull] ++ [.resp 200 (.jstr "hi")]) =
      (.success 200 (.jstr "hi"), ⟨3, retryDelays defaultRetryDelay 0 2⟩) ∧
    fetchWrapperRun defaultRetryDelay defaultRetries
        ([.resp 503 .jnull, .netErr] ++ .netErr :: []) =
      (.transportErr, ⟨3, retryDelays defaultRetryDelay 0 2⟩) ∧
    fetchWrapperRun defaultRetryDelay defaultRetries
        ([.resp 503 .jnull, .resp 503 .jnull] ++ .resp 502 (.jstr "gateway") :: []) =
      (.httpError 502 (.jstr "gateway"), ⟨3, retryDelays defaultRetryDelay 0 2⟩) := by
  refine ⟨?_, ?_, ?_⟩
  · exact claim6_retry_on_5xx.1 [.netErr, .resp 503 .jnull] defaultRetries defaultRetryDelay
      200 (.jstr "hi") (by decide) (by decide) (by decide) (by decide)
  · exact claim6_retry_on_5xx.2 [.resp 503 .jnull, .netErr] .netErr defaultRetries
      defaultRetryDelay [] (by decide) (by decide) (by decide)
  · exact claim6_retry_on_5xx.2 [.resp 503 .jnull, .resp 503 .jnull] (.resp 502 (.jstr "gateway"))
      defaultRetries defaultRetryDelay [] (by decide) (by decide) (by decide)

/-- Claim C7 counterexample: an otherwise-valid response whose confidence is
the numeric string 0.42 is rejected by validateQueryResponse (its typeof
number check admits no strings), contradicting the claim that it succeeds
with confidence 0.42. -/
theorem claim7_coercion_counterexample :
    validateQueryResponse (.jobj exampleStrConfFields) =
      .error (.invalidConfidence (some (.jstr "0.42"))) := rfl

/-- Claim C7 (amended): the zod NumericField coerces numeric strings with
parseFloat and validates them identically to the equivalent number, and
non-numeric strings always fail it; but validateQueryResponse requires
numeric fields to be numbers, so the otherwise-valid response whose
confidence is the string 0.42 is rejected there rather than coerced. -/
theorem claim7_coercion_amended :
    (∀ (s : String) (q : ℚ), parseFloatQ s = some q →
      NumericField (.jstr s) = some q ∧ NumericField (.jnum q) = some q) ∧
    NumericField (.jstr "0.42") = some (mkRat 21 50) ∧
    NumericField (.jstr "abc") = none ∧
    validateQueryResponse (.jobj exampleStrConfFields) =
      .error (.invalidConfidence (some (.jstr "0.42"))) :=
  ⟨fun _ _ h => ⟨h, rfl⟩, by decide, rfl, rfl⟩

/-- Concrete instantiation of claim7_coercion_amended at the string 0.42. -/
theorem claim7_coercion_witness :
    parseFloatQ "0.42" = some (mkRat 21 50) ∧
    (NumericField (.jstr "0.42") = some (mkRat 21 50) ∧
     NumericField (.jnum (mkRat 21 50)) = some (mkRat 21 50)) :=
  ⟨by decide, claim7_coercion_amended.1 "0.42" (mkRat 21 50) (by decide)⟩

/-- Claim C8: the four formatters are total String-valued functions (throwing
is not representable: every branch of the source returns a string), and on
every invalid input - null, undefined, a non-finite number, or a string that
does not convert to a finite number - each returns the given fallback string,
for every choice of the remaining options. -/
theorem claim8_formatter_totality (v : FormattableValue) (decimals minDigits digits : Nat)
    (trim expectsFraction : Bool) (unit : TimeUnit) (fallback : String)
    (h : isInvalidInput v = true) :
    safeToFixed v decimals trim fallback = fallback ∧
    safeCurrency v minDigits fallback = fallback ∧
    safePercentage v digits expectsFraction fallback = fallback ∧
    safeTime v unit decimals fallback = fallback := by
  match v with
  | .nullV => exact ⟨rfl, rfl, rfl, rfl⟩
  | .undef => exact ⟨rfl, rfl, rfl, rfl⟩
  | .num n =>
    match n with
    | .fin q => simp [isInvalidInput, JSNum.isFinite] at h
    | .nan => exact ⟨rfl, rfl, rfl, rfl⟩
    | .posInf => exact ⟨rfl, rfl, rfl, rfl⟩
    | .negInf => exact ⟨rfl, rfl, rfl, rfl⟩
  | .str s =>
    cases hn : jsNumberOfString s with
    | fin q => simp [isInvalidInput, hn, JSNum.isFinite] at h
    | nan =>
      exact ⟨by simp [safeToFixed, hn], by simp [safeCurrency, ensureNumeric, hn, JSNum.isFinite],
        by simp [safePercentage, ensureNumeric, hn, JSNum.isFinite],
        by simp [safeTime, ensureNumeric, hn, JSNum.isFinite]⟩
    | posInf =>
      exact ⟨by simp [safeToFixed, hn], by simp [safeCurrency, ensureNumeric, hn, JSNum.isFinite],
        by simp [safePercentage, ensureNumeric, hn, JSNum.isFinite],
        by simp [safeTime, ensureNumeric, hn, JSNum.isFinite]⟩
    | negInf =>
      exact ⟨by simp [safeToFixed, hn], by simp [safeCurrency, ensureNumeric, hn, JSNum.isFinite],
        by simp [safePercentage, ensureNumeric, hn, JSNum.isFinite],
        by simp [safeTime, ensureNumeric, hn, JSNum.isFinite]⟩

/-- Concrete instantiation of claim8_formatter_totality at the non-numeric
string abc. -/
theorem claim8_formatter_totality_witness :
    isInvalidInput (.str "abc") = true ∧
    (safeToFixed (.str "abc") 2 false "--" = "--" ∧
     safeCurrency (.str "abc") 2 "--" = "--" ∧
     safePercentage (.str "abc") 1 true "--" = "--" ∧
     safeTime (.str "abc") .s 1 "--" = "--") :=
  ⟨rfl, claim8_formatter_totality (.str "abc") 2 2 1 false true .s "--" rfl⟩

/-- Claim C9: validating an already-valid object is the identity: whenever
validateQueryResponse succeeds it returns its input unchanged (no fields
added, removed or altered), so with serialization modelled as the identity on
JSON values the round trip is the identity. -/
theorem claim9_roundtrip_identity (j r : Json) (h : validateQueryResponse j = .ok r) :
    r = j := by
  match j with
  | .jobj fields => exact (validate_ok_inv fields r h).1
  | .jnull => simp [validateQueryResponse] at h
  | .jbool b => simp [validateQueryResponse] at h
  | .jnum q => simp [validateQueryResponse] at h
  | .jstr s => simp [validateQueryResponse] at h
  | .jarr xs => simp [validateQueryResponse] at h

/-- Concrete instantiation of claim9_roundtrip_identity on a well-formed
response. -/
theorem claim9_roundtrip_witness :
    validateQueryResponse exampleResult = .ok exampleResult ∧ exampleResult = exampleResult :=
  ⟨rfl, claim9_roundtrip_identity exampleResult exampleResult rfl⟩

/-- Claim C10: every numeric field of ModelMetricsSchema is optional with
default 0: an element carrying only a model name parses successfully with all
seven numeric fields equal to 0, and QueryResponseSchema accepts a response
whose metrics carry no confidence at all rather than rejecting it. -/
theorem claim10_metric_defaults :
    (∀ (fields : List (String × Json)) (m : String),
      lookupField fields "model" = some (.jstr m) →
      lookupField fields "confidence" = none →
      lookupField fields "response_time_ms" = none →
      lookupField fields "cost" = none →
      lookupField fields "reliability_score" = none →
      lookupField fields "hallucination_risk" = none →
      lookupField fields "consistency_score" = none →
      lookupField fields "citation_quality" = none →
      ModelMetricsSchema (.jobj fields) = some ⟨m, 0, 0, 0, 0, 0, 0, 0⟩) ∧
    QueryResponseSchema exampleNoConfResponse =
      some ⟨"r1", none, "y", mkRat 9 10, ["m1"], "m1", 220, some (mkRat 1 100), none,
        some [⟨"m1", 0, 0, 0, 0, 0, 0, 0⟩], none, none⟩ := by
  constructor
  · intro fields m hm h1 h2 h3 h4 h5 h6 h7
    simp [ModelMetricsSchema, zStr, zNumDefault, hm, h1, h2, h3, h4, h5, h6, h7]
  · rfl

/-- Concrete instantiation of claim10_metric_defaults at a metric object
carrying only the model name. -/
theorem claim10_metric_defaults_witness :
    lookupField [("model", Json.jstr "m1")] "model" = some (.jstr "m1") ∧
    ModelMetricsSchema (.jobj [("model", .jstr "m1")]) = some ⟨"m1", 0, 0, 0, 0, 0, 0, 0⟩ :=
  ⟨rfl, claim10_metric_defaults.1 [("model", .jstr "m1")] "m1" rfl rfl rfl rfl rfl rfl rfl rfl⟩

end Lenzo

